import Mathlib

set_option maxRecDepth 100000

/-!
# Verification of the mediapeek media-acquisition pipeline

A shallow embedding, in Lean 4, of the core of the `mediapeek` repository:

* `src/app/lib/server-utils.ts` — URL guard (`validateUrl`,
  `resolveGoogleDriveUrl`) and header emulation (`getEmulationHeaders`);
* `src/app/services/media-fetch.server.ts` — the probe step and the bounded
  streaming copy loop of `fetchMediaChunk`, including the transparent
  zip/deflate unwrap and its error handling;
* `src/app/lib/media-utils.ts` — `normalizeMediaInfo` and
  `extractFirstFileFromArchive` (ZIP and TAR walkers).

Byte buffers (`Uint8Array`) are modelled as `List Nat`, streams of body
chunks as `List (List Nat)`, and the platform decompressor
(`DecompressionStream` with mode deflate-raw) as an abstract function from
the compressed byte sequence to the list of output chunks it emits.
JavaScript string primitives used by the source (`includes`, `parseInt`,
`split`, `startsWith`, `endsWith`) are embedded executably below.
-/

/-! ## JavaScript string and number primitives -/

/-- Does the character list `l` begin with the character list `pat`?
Helper for the model of `String.prototype.includes`. -/
def charsLeading : List Char → List Char → Bool
  | [], _ => true
  | _ :: _, [] => false
  | p :: ps, c :: cs => p == c && charsLeading ps cs

/-- Does `pat` occur as a contiguous run inside `l`? -/
def charsHasRun (pat : List Char) : List Char → Bool
  | [] => charsLeading pat []
  | c :: cs => charsLeading pat (c :: cs) || charsHasRun pat cs

/-- Models `s.includes(pat)` of JavaScript strings. -/
def strIncludes (s pat : String) : Bool :=
  charsHasRun pat.data s.data

/-- Value of a character as a digit below the given radix (digits `0`-`9`
then letters `a`-`z`/`A`-`Z`), as used by `parseInt`. -/
def jsDigitVal (radix : Nat) (c : Char) : Option Nat :=
  let v : Option Nat :=
    if '0' ≤ c ∧ c ≤ '9' then some (c.toNat - '0'.toNat)
    else if 'a' ≤ c ∧ c ≤ 'z' then some (c.toNat - 'a'.toNat + 10)
    else if 'A' ≤ c ∧ c ≤ 'Z' then some (c.toNat - 'A'.toNat + 10)
    else none
  match v with
  | some n => if n < radix then some n else none
  | none => none

/-- Accumulate the leading digit run of `l`; `none` when no digit was
consumed (`parseInt` returns NaN in that case). -/
def jsDigitsAcc (radix : Nat) : List Char → Option Nat → Option Nat
  | [], acc => acc
  | c :: cs, acc =>
    match jsDigitVal radix c with
    | some d => jsDigitsAcc radix cs (some ((acc.getD 0) * radix + d))
    | none => acc

/-- Models `parseInt(s, radix)` of JavaScript: skip leading whitespace, an
optional sign, then the longest run of digits of the radix; `none` models
NaN. -/
def jsParseInt (radix : Nat) (s : String) : Option Int :=
  match s.data.dropWhile (fun c => c.isWhitespace) with
  | '-' :: rest => (jsDigitsAcc radix rest none).map (fun n => -(n : Int))
  | '+' :: rest => (jsDigitsAcc radix rest none).map (fun n => (n : Int))
  | l => (jsDigitsAcc radix l none).map (fun n => (n : Int))

/-- Models `s.startsWith(pre)` of JavaScript strings (agrees with Lean's
`String.startsWith`; spelled over character lists so that it evaluates
inside the kernel). -/
def jsStartsWith (s pre : String) : Bool :=
  charsLeading pre.data s.data

/-- Models `s.endsWith(suf)` of JavaScript strings. -/
def jsEndsWith (s suf : String) : Bool :=
  charsLeading suf.data.reverse s.data.reverse

/-- Helper for `jsSplit`: the accumulator holds the current segment
reversed. -/
def jsSplitAux (sep : Char) : List Char → List Char → List String
  | [], acc => [String.mk acc.reverse]
  | c :: cs, acc =>
    if c == sep then String.mk acc.reverse :: jsSplitAux sep cs []
    else jsSplitAux sep cs (c :: acc)

/-- Models `s.split(sep)` of JavaScript for a one-character separator. -/
def jsSplit (sep : Char) (s : String) : List String :=
  jsSplitAux sep s.data []

/-! ## URL guard — `src/app/lib/server-utils.ts` -/

/-- `LOCALHOST_IPS` (server-utils.ts line 3). -/
def LOCALHOST_IPS : List String := ["::1", "127.0.0.1"]

/-- `META_DATA_HOSTS` (server-utils.ts lines 4-7). -/
def META_DATA_HOSTS : List String := ["metadata.google.internal", "169.254.169.254"]

/-- Models `validateUrl` (server-utils.ts lines 33-61) applied to the
hostname already extracted from the URL by the platform URL parser
(`new URL(url).hostname`, an external collaborator).  Returns the message
of the raised error, or `none` when the URL passes validation. -/
def validateUrlHost (host : String) : Option String :=
  if host == "localhost" || jsStartsWith host "127." || LOCALHOST_IPS.contains host then
    some "Invalid URL: Access to local resources is denied."
  else if META_DATA_HOSTS.contains host then
    some "Invalid URL: Access to metadata services is denied."
  else if jsStartsWith host "10." || jsStartsWith host "192.168." then
    some "Invalid URL: Access to private resources is denied."
  else if jsStartsWith host "172." &&
      (match jsParseInt 10 ((jsSplit '.' host).getD 1 "") with
       | some v => decide (16 ≤ v ∧ v ≤ 31)
       | none => false) then
    some "Invalid URL: Access to private resources is denied."
  else
    none

/-- Character class `[-a-zA-Z0-9_]` of `GOOGLE_DRIVE_REGEX`
(server-utils.ts lines 9-10). -/
def driveIdChar (c : Char) : Bool :=
  c == '-' || ('a' ≤ c && c ≤ 'z') || ('A' ≤ c && c ≤ 'Z') ||
    ('0' ≤ c && c ≤ '9') || c == '_'

/-- Attempt to match `GOOGLE_DRIVE_REGEX` at the head of `l`: the literal
part of the pattern, then a non-empty run of id characters (the capture
group), then the literal `/view`.  Because `/` is not an id character, the
greedy group can only match the maximal run, so no backtracking arises. -/
def driveMatchAt (l : List Char) : Option String :=
  let lit := "https://drive.google.com/file/d/".data
  if charsLeading lit l then
    let rest := l.drop lit.length
    let run := rest.takeWhile driveIdChar
    if run.length > 0 && charsLeading "/view".data (rest.drop run.length) then
      some (String.mk run)
    else none
  else none

/-- Models `GOOGLE_DRIVE_REGEX.exec(url)`: leftmost match, returning the
capture group (the file id). -/
def driveSearch : List Char → Option String
  | [] => none
  | c :: cs =>
    match driveMatchAt (c :: cs) with
    | some r => some r
    | none => driveSearch cs

/-- Models `resolveGoogleDriveUrl` (server-utils.ts lines 63-75): the
rewritten target URL together with the `isGoogleDrive` flag. -/
def resolveGoogleDriveUrl (url : String) : String × Bool :=
  match driveSearch url.data with
  | some fileId =>
    ("https://drive.usercontent.google.com/download?id=" ++ fileId ++
      "&export=download&confirm=t", true)
  | none =>
    if strIncludes url "drive.usercontent.google.com" then (url, true)
    else (url, false)

/-! ## Header emulation and the probe step -/

/-- `EMULATION_HEADERS_INIT` (server-utils.ts lines 15-31). -/
def EMULATION_HEADERS_INIT : List (String × String) :=
  [("accept",
    "text/html,application/xhtml+xml,application/xml;q=0.9,image/avif,image/webp,image/apng,*/*;q=0.8,application/signed-exchange;v=b3;q=0.7"),
   ("accept-language", "en-US,en;q=0.9"),
   ("priority", "u=0, i"),
   ("sec-ch-ua", "\"Google Chrome\";v=\"143\", \"Chromium\";v=\"143\", \"Not A(Brand\";v=\"24\""),
   ("sec-ch-ua-mobile", "?0"),
   ("sec-ch-ua-platform", "\"macOS\""),
   ("sec-fetch-dest", "document"),
   ("sec-fetch-mode", "navigate"),
   ("sec-fetch-site", "none"),
   ("sec-fetch-user", "?1"),
   ("upgrade-insecure-requests", "1"),
   ("user-agent",
    "Mozilla/5.0 (Macintosh; Intel Mac OS X 10_15_7) AppleWebKit/537.36 (KHTML, like Gecko) Chrome/143.0.0.0 Safari/537.36")]

/-- Models `getEmulationHeaders` (server-utils.ts lines 77-81): the static
browser-emulation header set, with a `Range` entry appended when a range
string is supplied.  Headers are modelled as name/value pairs. -/
def getEmulationHeaders (range : Option String) : List (String × String) :=
  EMULATION_HEADERS_INIT ++
    (match range with
     | some r => [("Range", r)]
     | none => [])

/-- ASCII lowercase of one character (header names are ASCII). -/
def lcChar (c : Char) : Char :=
  if 'A' ≤ c ∧ c ≤ 'Z' then Char.ofNat (c.toNat + 32) else c

/-- ASCII lowercase of a string. -/
def lcStr (s : String) : String :=
  String.mk (s.data.map lcChar)

/-- Models `Headers.get(name)` of the platform: case-insensitive lookup of
the first header with the given name. -/
def headerGet (hs : List (String × String)) (nm : String) : Option String :=
  (hs.find? (fun p => lcStr p.1 == lcStr nm)).map (fun p => p.2)

/-- An HTTP response as seen by the prober: status plus response headers. -/
structure HttpResponse where
  status : Nat
  headers : List (String × String)
  deriving DecidableEq

/-- The outgoing probe retry request: method and request headers. -/
structure ProbeRequest where
  method : String
  reqHeaders : List (String × String)
  deriving DecidableEq

/-- Result of the probe step: the response all subsequent header
inspection reads from, the recorded `probeMethod` diagnostic, and the
retry request when one was issued. -/
structure ProbeOutcome where
  res : HttpResponse
  probeMethod : String
  retry : Option ProbeRequest
  deriving DecidableEq

/-- Models the HEAD-with-GET-fallback probe of `fetchMediaChunk`
(media-fetch.server.ts lines 36-56): `headRes` is the response to the
initial HEAD request; `retryGet` is the response the remote would give to
the single-byte GET retry (only consulted when the HEAD status is 405;
after the retry the code rebinds `headRes` to it, so every later header
read uses the GET response). -/
def probeStep (headRes : HttpResponse) (retryGet : HttpResponse) : ProbeOutcome :=
  if headRes.status == 405 then
    { res := retryGet, probeMethod := "GET",
      retry := some { method := "GET", reqHeaders := getEmulationHeaders (some "bytes=0-0") } }
  else
    { res := headRes, probeMethod := "HEAD", retry := none }

/-- The content type inspected after the probe
(media-fetch.server.ts line 59). -/
def probeContentType (o : ProbeOutcome) : Option String :=
  headerGet o.res.headers "content-type"

/-! ## Bounded stream fetcher — `src/app/services/media-fetch.server.ts` -/

/-- `SAFE_LIMIT` (media-fetch.server.ts line 142): the 10 MiB hard cap on
the pre-allocated buffer. -/
def SAFE_LIMIT : Nat := 10 * 1024 * 1024

/-- `buffer[i]` of a `Uint8Array` modelled as a list of bytes; all reads in
the source are guarded to be in bounds, so the default `0` is never the
value actually used. -/
def byteAt (c : List Nat) (i : Nat) : Nat :=
  c.getD i 0

/-- Cumulative length of a sequence of body chunks. -/
def totalLen (chunks : List (List Nat)) : Nat :=
  (chunks.map (fun c => c.length)).sum

/-- Mutable state of the copy loop: the bytes copied so far
(`tempBuffer[0 .. offset)`), the write offset, and whether the reader was
cancelled via `cancel()`. -/
structure FetchState where
  written : List Nat
  offset : Nat
  cancelled : Bool
  deriving DecidableEq

/-- Models the read loop of `fetchMediaChunk`
(media-fetch.server.ts lines 241-256): each chunk either exceeds the space
left — copy only the fitting head, cancel the reader and stop — or is
copied whole, advancing the offset. -/
def readLoop (limit : Nat) : FetchState → List (List Nat) → FetchState
  | s, [] => s
  | s, value :: rest =>
    let spaceLeft := limit - s.offset
    if value.length > spaceLeft then
      { written := s.written ++ value.take spaceLeft,
        offset := s.offset + spaceLeft,
        cancelled := true }
    else
      readLoop limit
        { written := s.written ++ value,
          offset := s.offset + value.length,
          cancelled := s.cancelled } rest

/-- Does the first chunk carry the zip local-file-header signature
`0x50 0x4B 0x03 0x04` and more than 30 bytes
(media-fetch.server.ts lines 165-172)? -/
def zipSigMatch (c : List Nat) : Bool :=
  decide (c.length > 30) &&
    (byteAt c 0 == 0x50) && (byteAt c 1 == 0x4b) &&
    (byteAt c 2 == 0x03) && (byteAt c 3 == 0x04)

/-- The compression-method field at byte offset 8, 16-bit little-endian
(media-fetch.server.ts line 174). -/
def compressionMethod (c : List Nat) : Nat :=
  Nat.lor (byteAt c 8) (Nat.shiftLeft (byteAt c 9) 8)

/-- `dataOffset = 30 + fileNameLength + extraFieldLength`
(media-fetch.server.ts lines 182-184). -/
def dataOffsetOf (c : List Nat) : Nat :=
  30 + Nat.lor (byteAt c 26) (Nat.shiftLeft (byteAt c 27) 8) +
    Nat.lor (byteAt c 28) (Nat.shiftLeft (byteAt c 29) 8)

/-- Does the archive unwrap fire for this first chunk: signature and
length checks pass, the method is 8 (deflate), and the chunk extends past
`dataOffset` (media-fetch.server.ts lines 165-216)? -/
def unwrapFires (c : List Nat) : Bool :=
  zipSigMatch c && (compressionMethod c == 8) && decide (c.length > dataOffsetOf c)

/-- Everything `fetchMediaChunk` computes from the body stream: the
right-sized buffer view, the final write offset, whether the underlying
stream was cancelled, and the `isZipCompressed` flag. -/
structure FetchOut where
  buffer : List Nat
  offset : Nat
  cancelled : Bool
  isZipCompressed : Bool
  deriving DecidableEq

/-- Models the body-consuming part of `fetchMediaChunk`
(media-fetch.server.ts lines 142-276) on the sequence of chunks the
response body delivers before ending.  `deflateRaw` abstracts the platform
`DecompressionStream` of mode deflate-raw: it maps the concatenated
compressed bytes fed into the pipeline to the list of output chunks the
decompressor emits.

The first read yields the first chunk (or `done` when the list is empty).
If the zip signature, the deflate method and the geometry checks all pass,
the remainder of the first chunk past `dataOffset` followed by the rest of
the stream is piped through the decompressor and the copy loop consumes
the decompressor's output.  Otherwise the pending first chunk is processed
manually — on overflow the reader is cancelled only when no decompression
pipeline owns it — and the loop consumes the remaining chunks. -/
def fetchBody (deflateRaw : List Nat → List (List Nat)) (limit : Nat)
    (chunks : List (List Nat)) : FetchOut :=
  match chunks with
  | [] =>
    { buffer := [], offset := 0, cancelled := false, isZipCompressed := false }
  | first :: rest =>
    if unwrapFires first then
      let ds := deflateRaw (first.drop (dataOffsetOf first) ++ rest.flatten)
      let s0 : FetchState := { written := [], offset := 0, cancelled := false }
      let s := if s0.offset < limit then readLoop limit s0 ds else s0
      { buffer := s.written, offset := s.offset, cancelled := s.cancelled,
        isZipCompressed := true }
    else
      let isZip := zipSigMatch first && (compressionMethod first == 8)
      let spaceLeft := limit - 0
      if first.length > spaceLeft then
        { buffer := first.take spaceLeft, offset := spaceLeft,
          cancelled := !isZip, isZipCompressed := isZip }
      else
        let s0 : FetchState :=
          { written := first, offset := first.length, cancelled := false }
        let s := if s0.offset < limit then readLoop limit s0 rest else s0
        { buffer := s.written, offset := s.offset, cancelled := s.cancelled,
          isZipCompressed := isZip }

/-- Models the catch handler of the copy section
(media-fetch.server.ts lines 258-273): the failure is swallowed (`none`)
when at least one byte was written and the message indicates incomplete
data or an unexpected end of file; every other failure is re-raised with
the `Stream reading failed: ` wrapper. -/
def handleStreamError (offset : Nat) (msg : String) : Option String :=
  if decide (offset > 0) &&
      (strIncludes msg "incomplete data" || strIncludes msg "unexpected end of file") then
    none
  else
    some ("Stream reading failed: " ++ msg)

/-- The read loop when the stream terminates with a failure instead of a
clean end: the chunks are consumed as in `readLoop`; if the loop is still
reading when the terminal failure arrives, the catch handler decides
whether the partial state is returned or an error is raised
(media-fetch.server.ts lines 220-273). -/
def readLoopErr (limit : Nat) (s : FetchState) :
    List (List Nat) → Option String → Except String FetchState
  | [], none => .ok s
  | [], some m =>
    match handleStreamError s.offset m with
    | none => .ok s
    | some e => .error e
  | value :: rest, err =>
    let spaceLeft := limit - s.offset
    if value.length > spaceLeft then
      .ok { written := s.written ++ value.take spaceLeft,
            offset := s.offset + spaceLeft,
            cancelled := true }
    else
      readLoopErr limit
        { written := s.written ++ value,
          offset := s.offset + value.length,
          cancelled := s.cancelled } rest err

/-- The end of the byte range requested by the content fetch
(media-fetch.server.ts lines 129-132): `min(chunkSize - 1, fileSize - 1)`
when the total size is known, else `chunkSize - 1`; computed over `Int`
because JavaScript subtraction does not truncate at zero. -/
def fetchEnd (chunkSize : Nat) (fileSize : Option Nat) : Int :=
  match fileSize with
  | some n => min ((chunkSize : Int) - 1) ((n : Int) - 1)
  | none => (chunkSize : Int) - 1

/-- The number of bytes the range header `bytes=0-fetchEnd` asks for. -/
def requestedLen (chunkSize : Nat) (fileSize : Option Nat) : Int :=
  fetchEnd chunkSize fileSize + 1

/-! ## Archive peek — `src/app/lib/media-utils.ts` -/

/-- Models `new TextDecoder().decode(bytes)`.  The model maps each byte to
the character of the same code point, which agrees with the platform UTF-8
decoder on ASCII content; all entry names in the verified scenarios are
ASCII.  Multi-byte UTF-8 sequences are outside the model. -/
def textDecode (bs : List Nat) : String :=
  String.mk (bs.map (fun b => Char.ofNat b))

/-- A 16-bit little-endian read `view.getUint16(i, true)`. -/
def rd16 (buffer : List Nat) (i : Nat) : Nat :=
  byteAt buffer i + 256 * byteAt buffer (i + 1)

/-- A 32-bit little-endian read `view.getUint32(i, true)`. -/
def rd32 (buffer : List Nat) (i : Nat) : Nat :=
  byteAt buffer i + 256 * byteAt buffer (i + 1) +
    65536 * byteAt buffer (i + 2) + 16777216 * byteAt buffer (i + 3)

/-- Models the `while` walk of `extractFirstFileFromZip`
(media-utils.ts lines 458-513), with explicit fuel standing for the loop
iterations (each iteration advances the offset by at least the 30-byte
header, so `buffer.length + 1` iterations always suffice).  In the source
both the data-descriptor branch and the plain branch return the name of a
non-directory entry immediately, and only a directory entry advances the
walk, by header size plus compressed size (taken as zero under the
data-descriptor flag). -/
def extractZipLoop (buffer : List Nat) : Nat → Nat → Option String
  | 0, _ => none
  | fuel + 1, offset =>
    if offset + 30 ≤ buffer.length then
      if byteAt buffer offset == 0x50 && byteAt buffer (offset + 1) == 0x4b &&
          byteAt buffer (offset + 2) == 0x03 && byteAt buffer (offset + 3) == 0x04 then
        let generalPurposeFlag := rd16 buffer (offset + 6)
        let compressedSize := rd32 buffer (offset + 18)
        let fileNameLength := rd16 buffer (offset + 26)
        let extraFieldLength := rd16 buffer (offset + 28)
        let fileNameStart := offset + 30
        if fileNameStart + fileNameLength ≤ buffer.length then
          let fileName := textDecode ((buffer.drop fileNameStart).take fileNameLength)
          let hasDataDescriptor := Nat.land generalPurposeFlag 0x08 != 0
          if !(jsEndsWith fileName "/") then some fileName
          else
            let skipSize := if hasDataDescriptor then 0 else compressedSize
            let headerSize := 30 + fileNameLength + extraFieldLength
            extractZipLoop buffer fuel (offset + headerSize + skipSize)
        else none
      else none
    else none

/-- Models `extractFirstFileFromZip` (media-utils.ts lines 458-513). -/
def extractFirstFileFromZip (buffer : List Nat) : Option String :=
  extractZipLoop buffer (buffer.length + 1) 0

/-- Models the `while` walk of `extractFirstFileFromTar`
(media-utils.ts lines 515-599) with explicit fuel (each iteration advances
the offset by at least 512 bytes).  `nameOverride` carries a pending GNU
long-name; an empty override string is falsy in JavaScript and therefore
behaves like no override.  The type-flag is a one-character string in the
source, hence always truthy, so its `!typeFlag` file test never fires.
The parsed octal size is clamped at zero, matching `parseInt(...) || 0`
for the octal digit strings a header can carry. -/
def tarLoop (buffer : List Nat) : Nat → Nat → Option String → Option String
  | 0, _, _ => none
  | fuel + 1, offset, nameOverride =>
    if offset + 512 ≤ buffer.length then
      if byteAt buffer offset == 0 &&
          ((buffer.drop offset).take 512).all (fun b => b == 0) then
        tarLoop buffer fuel (offset + 512) nameOverride
      else
        let name : Option String :=
          match nameOverride with
          | some n => if n == "" then
              let nameBytes := ((buffer.drop offset).take 100).takeWhile (fun b => b != 0)
              if nameBytes.length > 0 then some (textDecode nameBytes) else none
            else some n
          | none =>
            let nameBytes := ((buffer.drop offset).take 100).takeWhile (fun b => b != 0)
            if nameBytes.length > 0 then some (textDecode nameBytes) else none
        let typeFlag := Char.ofNat (byteAt buffer (offset + 156))
        let sizeBytes := ((buffer.drop (offset + 124)).take 12).takeWhile
          (fun b => b != 0 && b != 0x20)
        let size := ((jsParseInt 8 (textDecode sizeBytes)).getD 0).toNat
        if typeFlag == 'L' then
          let blocks := (size + 511) / 512
          let contentStart := offset + 512
          let contentEnd := contentStart + size
          let newOverride :=
            if contentEnd ≤ buffer.length then
              let longNameBytes := (buffer.drop contentStart).take size
              let trimmed := (longNameBytes.reverse.dropWhile (fun b => b == 0)).reverse
              some (textDecode trimmed)
            else nameOverride
          tarLoop buffer fuel (offset + 512 + blocks * 512) newOverride
        else
          let isDir := typeFlag == '5' ||
            (match name with
             | some n => jsEndsWith n "/"
             | none => false)
          let isFile := typeFlag == '0' || typeFlag == Char.ofNat 0 || typeFlag == ' '
          let hit : Option String :=
            if !isDir && isFile then
              match name with
              | some n => if !(jsEndsWith n "/") then some n else none
              | none => none
            else none
          match hit with
          | some n => some n
          | none =>
            let blocks := (size + 511) / 512
            tarLoop buffer fuel (offset + 512 + blocks * 512) none
    else none

/-- Models `extractFirstFileFromTar` (media-utils.ts lines 515-599). -/
def extractFirstFileFromTar (buffer : List Nat) : Option String :=
  tarLoop buffer (buffer.length + 1) 0 none

/-- Models `extractFirstFileFromArchive` (media-utils.ts lines 432-456):
dispatch on the ZIP local-header signature, then on the USTAR magic at
offset 257, else `null`. -/
def extractFirstFileFromArchive (buffer : List Nat) : Option String :=
  if decide (buffer.length > 4) && byteAt buffer 0 == 0x50 && byteAt buffer 1 == 0x4b &&
      byteAt buffer 2 == 0x03 && byteAt buffer 3 == 0x04 then
    extractFirstFileFromZip buffer
  else if decide (buffer.length > 262) &&
      (textDecode ((buffer.drop 257).take 5) == "ustar") then
    extractFirstFileFromTar buffer
  else
    none

/-- All-zero filler bytes, for building concrete archive buffers. -/
def zeros (n : Nat) : List Nat := List.replicate n 0

/-- The bytes of an ASCII string. -/
def asciiBytes (s : String) : List Nat := s.data.map Char.toNat

/-- Right-pad a byte list with zeros up to length `n`. -/
def padTo (n : Nat) (l : List Nat) : List Nat := l ++ zeros (n - l.length)

/-- A ZIP buffer holding a single local-file-header record for the
non-directory entry `movie.mkv` (no flags, empty extra field). -/
def zipSingleEntry : List Nat :=
  padTo 26 [0x50, 0x4b, 0x03, 0x04] ++ [9, 0, 0, 0] ++ asciiBytes "movie.mkv"

/-- A ZIP buffer whose first record is the directory `dir/` (compressed
size zero) followed by a record for the file `file.bin`. -/
def zipDirThenFile : List Nat :=
  padTo 26 [0x50, 0x4b, 0x03, 0x04] ++ [4, 0, 0, 0] ++ asciiBytes "dir/" ++
    padTo 26 [0x50, 0x4b, 0x03, 0x04] ++ [8, 0, 0, 0] ++ asciiBytes "file.bin"

/-- A TAR buffer in which a GNU long-name (type `L`) extension block with
payload `averylongname.mkv` (octal size field `21`) precedes the real
entry, whose own 100-byte name field stores `short.mkv`. -/
def tarLongNameEntry : List Nat :=
  (padTo 124 (asciiBytes "././@LongLink") ++ padTo 12 (asciiBytes "21") ++
      zeros 20 ++ [0x4c] ++ zeros 100 ++ asciiBytes "ustar" ++ zeros 250) ++
    padTo 512 (asciiBytes "averylongname.mkv") ++
    (padTo 124 (asciiBytes "short.mkv") ++ padTo 12 (asciiBytes "0") ++
      zeros 20 ++ [0x30] ++ zeros 100 ++ asciiBytes "ustar" ++ zeros 250)

/-! ## MediaInfo normalization — `src/app/lib/media-utils.ts` -/

mutual
/-- A JSON-like value as handled by `normalizeMediaInfo`
(media-utils.ts lines 61-98): primitives (string, number, boolean, null,
undefined), ordered string-keyed maps, and sequences. -/
inductive JVal where
  | jstr : String → JVal
  | jnum : Int → JVal
  | jbool : Bool → JVal
  | jnull : JVal
  | jundef : JVal
  | jobj : JFields → JVal
  | jarr : JList → JVal

/-- A sequence of JSON-like values. -/
inductive JList where
  | jnil : JList
  | jcons : JVal → JList → JList

/-- The ordered fields of a JSON-like map. -/
inductive JFields where
  | fnil : JFields
  | fcons : String → JVal → JFields → JFields
end

/-- Property lookup `data[k]` on a JSON-like map (first matching key). -/
def jlookup (k : String) : JFields → Option JVal
  | .fnil => none
  | .fcons k2 v fs => if k2 == k then some v else jlookup k fs

/-- Is this value the JavaScript `undefined`? -/
def isUndefV : JVal → Bool
  | .jundef => true
  | _ => false

/-- The wrapper test of `normalizeMediaInfo`
(media-utils.ts lines 79-82): the map has a `#value` property and its
value is not `undefined`. -/
def isWrapped (fs : JFields) : Bool :=
  match jlookup "#value" fs with
  | some v => !(isUndefV v)
  | none => false

mutual
/-- Models `normalizeMediaInfo` (media-utils.ts lines 71-98): sequences
are normalized element-wise; a map carrying a defined `#value` property is
replaced by that property's raw value (note: without normalizing it
further); any other map is normalized field-wise; primitives pass through
unchanged. -/
def normalizeMediaInfo : JVal → JVal
  | .jarr items => .jarr (normalizeMediaInfoList items)
  | .jobj fields =>
    (match jlookup "#value" fields with
     | some v => if isUndefV v then .jobj (normalizeMediaInfoFields fields) else v
     | none => .jobj (normalizeMediaInfoFields fields))
  | v => v

/-- Element-wise normalization of a sequence. -/
def normalizeMediaInfoList : JList → JList
  | .jnil => .jnil
  | .jcons v rest => .jcons (normalizeMediaInfo v) (normalizeMediaInfoList rest)

/-- Field-wise normalization of a map. -/
def normalizeMediaInfoFields : JFields → JFields
  | .fnil => .fnil
  | .fcons k v rest => .fcons k (normalizeMediaInfo v) (normalizeMediaInfoFields rest)
end

mutual
/-- No map with a defined `#value` wrapper key occurs at any depth. -/
def wfreeV : JVal → Bool
  | .jobj fs => !(isWrapped fs) && wfreeF fs
  | .jarr l => wfreeL l
  | _ => true

/-- `wfreeV` over a sequence. -/
def wfreeL : JList → Bool
  | .jnil => true
  | .jcons v rest => wfreeV v && wfreeL rest

/-- `wfreeV` over map fields. -/
def wfreeF : JFields → Bool
  | .fnil => true
  | .fcons _ v rest => wfreeV v && wfreeF rest
end

mutual
/-- Every wrapper payload in the value is itself wrapper-free (the shape
MediaInfo actually produces: payloads are flat values). -/
def goodV : JVal → Bool
  | .jobj fs =>
    (match jlookup "#value" fs with
     | some v => if isUndefV v then goodF fs else wfreeV v
     | none => goodF fs)
  | .jarr l => goodL l
  | _ => true

/-- `goodV` over a sequence. -/
def goodL : JList → Bool
  | .jnil => true
  | .jcons v rest => goodV v && goodL rest

/-- `goodV` over map fields. -/
def goodF : JFields → Bool
  | .fnil => true
  | .fcons _ v rest => goodV v && goodF rest
end

/-! ## General lemmas about the copy loop -/

@[simp] theorem totalLen_nil : totalLen [] = 0 := rfl

@[simp] theorem totalLen_cons (c : List Nat) (cs : List (List Nat)) :
    totalLen (c :: cs) = c.length + totalLen cs := by
  simp [totalLen]

/-- Behaviour of the copy loop on any remaining chunk sequence, starting
from any reachable state: the final offset is the cumulative input clipped
at the cap, the written bytes are the head of the concatenated input that
fits in the remaining space, and the reader ends up cancelled exactly when
the cumulative input strictly overflows the cap. -/
theorem readLoop_spec (limit : Nat) :
    ∀ (cs : List (List Nat)) (s : FetchState), s.offset ≤ limit →
      (readLoop limit s cs).offset = min (s.offset + totalLen cs) limit ∧
      (readLoop limit s cs).written = s.written ++ cs.flatten.take (limit - s.offset) ∧
      (readLoop limit s cs).cancelled = (s.cancelled || decide (limit < s.offset + totalLen cs))
  | [], s, h => by
    have hlt : ¬ (limit < s.offset + totalLen []) := by simp; omega
    simp [readLoop, min_eq_left, h, hlt]
  | value :: rest, s, h => by
    simp only [readLoop]
    by_cases hv : value.length > limit - s.offset
    · simp only [if_pos hv]
      refine ⟨by simp; omega, ?_, ?_⟩
      · have htk : rest.flatten.take (limit - s.offset - value.length) = [] := by
          have : limit - s.offset - value.length = 0 := by omega
          simp [this]
        simp [List.take_append_eq_append_take, htk]
      · have : limit < s.offset + (value.length + totalLen rest) := by omega
        simp [this]
    · simp only [if_neg hv]
      have h2 : s.offset + value.length ≤ limit := by omega
      obtain ⟨ih1, ih2, ih3⟩ := readLoop_spec limit rest
        { written := s.written ++ value, offset := s.offset + value.length,
          cancelled := s.cancelled } h2
      refine ⟨?_, ?_, ?_⟩
      · rw [ih1]; simp; omega
      · rw [ih2]
        have hvlen : value.length ≤ limit - s.offset := by omega
        simp [List.take_append_eq_append_take, List.take_of_length_le hvlen,
          Nat.sub_sub]
      · rw [ih3]; simp; congr 1; simp; omega

/-- When the archive unwrap fires, the copy loop consumes the
decompressor's output stream. -/
theorem fetchBody_unwrap_spec (d : List Nat → List (List Nat)) (limit : Nat)
    (first : List Nat) (rest : List (List Nat))
    (h : unwrapFires first = true) (hl : 0 < limit) :
    fetchBody d limit (first :: rest) =
      { buffer := (d (first.drop (dataOffsetOf first) ++ rest.flatten)).flatten.take limit,
        offset := min (totalLen (d (first.drop (dataOffsetOf first) ++ rest.flatten))) limit,
        cancelled := decide (limit < totalLen (d (first.drop (dataOffsetOf first) ++ rest.flatten))),
        isZipCompressed := true } := by
  obtain ⟨h1, h2, h3⟩ := readLoop_spec limit
    (d (first.drop (dataOffsetOf first) ++ rest.flatten))
    { written := [], offset := 0, cancelled := false } (Nat.zero_le _)
  simp only [fetchBody, h, if_true, hl, if_pos]
  simp_all

/-- When the unwrap does not fire, the buffer is the head of the
concatenated raw chunk stream clipped at the cap. -/
theorem fetchBody_plain_buffer (d : List Nat → List (List Nat)) (limit : Nat)
    (first : List Nat) (rest : List (List Nat)) (h : unwrapFires first = false) :
    (fetchBody d limit (first :: rest)).buffer = ((first :: rest).flatten).take limit := by
  simp only [fetchBody, h, Bool.false_eq_true, if_false]
  by_cases ho : first.length > limit - 0
  · simp only [if_pos ho]
    have htk : rest.flatten.take (limit - first.length) = [] := by
      have : limit - first.length = 0 := by omega
      simp [this]
    simp [List.take_append_eq_append_take, htk]
  · simp only [if_neg ho]
    by_cases hg : first.length < limit
    · obtain ⟨h1, h2, h3⟩ := readLoop_spec limit rest
        { written := first, offset := first.length, cancelled := false } (le_of_lt hg)
      simp only [hg, if_pos, h2]
      have hf : first.take limit = first := List.take_of_length_le (by omega)
      simp [List.take_append_eq_append_take, hf]
    · have he : first.length = limit := by omega
      simp only [hg, if_neg, if_false]
      have htk : rest.flatten.take (limit - first.length) = [] := by
        simp [he]
      simp [List.take_append_eq_append_take, htk, ← he]

/-- When the unwrap does not fire, the final offset is the cumulative raw
input clipped at the cap. -/
theorem fetchBody_plain_offset (d : List Nat → List (List Nat)) (limit : Nat)
    (first : List Nat) (rest : List (List Nat)) (h : unwrapFires first = false) :
    (fetchBody d limit (first :: rest)).offset = min (totalLen (first :: rest)) limit := by
  simp only [fetchBody, h, Bool.false_eq_true, if_false]
  by_cases ho : first.length > limit - 0
  · simp only [if_pos ho]; simp; omega
  · simp only [if_neg ho]
    by_cases hg : first.length < limit
    · obtain ⟨h1, h2, h3⟩ := readLoop_spec limit rest
        { written := first, offset := first.length, cancelled := false } (le_of_lt hg)
      simp only [hg, if_pos, h1]
      simp
    · simp only [hg, if_neg, if_false]; simp; omega

/-- When the first chunk does not even carry the zip-deflate signature, the
reader is cancelled exactly when the cumulative input strictly overflows
the cap and the first chunk alone does not exactly fill the buffer. -/
theorem fetchBody_plain_cancelled (d : List Nat → List (List Nat)) (limit : Nat)
    (first : List Nat) (rest : List (List Nat))
    (h0 : (zipSigMatch first && (compressionMethod first == 8)) = false) :
    (fetchBody d limit (first :: rest)).cancelled =
      (decide (limit < totalLen (first :: rest)) && decide (first.length ≠ limit)) := by
  have h : unwrapFires first = false := by
    simp only [unwrapFires, h0, Bool.false_and]
  simp only [fetchBody, h, Bool.false_eq_true, if_false, h0]
  by_cases ho : first.length > limit - 0
  · simp only [if_pos ho]
    have h1 : limit < first.length + totalLen rest := by omega
    have h2 : first.length ≠ limit := by omega
    simp [h0, h1, h2]
  · simp only [if_neg ho]
    by_cases hg : first.length < limit
    · obtain ⟨h1, h2, h3⟩ := readLoop_spec limit rest
        { written := first, offset := first.length, cancelled := false } (le_of_lt hg)
      simp only [hg, if_pos, h3]
      have h4 : first.length ≠ limit := by omega
      simp [h4]
    · have he : first.length = limit := by omega
      simp only [hg, if_neg, if_false]
      simp [he]

/-- The final offset never exceeds the cap, whatever the remote sends and
whatever the decompressor emits. -/
theorem fetchBody_offset_le (d : List Nat → List (List Nat)) (limit : Nat)
    (chunks : List (List Nat)) :
    (fetchBody d limit chunks).offset ≤ limit := by
  match chunks with
  | [] => simp [fetchBody]
  | first :: rest =>
    by_cases h : unwrapFires first = true
    · obtain ⟨h1, h2, h3⟩ := readLoop_spec limit
        (d (first.drop (dataOffsetOf first) ++ rest.flatten))
        { written := [], offset := 0, cancelled := false } (Nat.zero_le _)
      simp only [fetchBody, h, if_true]
      by_cases hl : (0 : Nat) < limit
      · simp only [hl, if_pos, h1]; omega
      · simp only [hl, if_neg, if_false]; omega
    · rw [fetchBody_plain_offset d limit first rest (by simpa using h)]
      omega

/-- The returned buffer view is never longer than the cap. -/
theorem fetchBody_buffer_le (d : List Nat → List (List Nat)) (limit : Nat)
    (chunks : List (List Nat)) :
    (fetchBody d limit chunks).buffer.length ≤ limit := by
  match chunks with
  | [] => simp [fetchBody]
  | first :: rest =>
    by_cases h : unwrapFires first = true
    · simp only [fetchBody, h, if_true]
      by_cases hl : (0 : Nat) < limit
      · obtain ⟨h1, h2, h3⟩ := readLoop_spec limit
          (d (first.drop (dataOffsetOf first) ++ rest.flatten))
          { written := [], offset := 0, cancelled := false } (Nat.zero_le _)
        simp only [hl, if_pos, h2]
        simp [List.length_take]
      · simp only [hl, if_neg, if_false]; simp
    · rw [fetchBody_plain_buffer d limit first rest (by simpa using h)]
      simp [List.length_take]

/-- When the cumulative input fits under the cap, the loop is still
reading when the terminal failure arrives, so the catch handler decides
the outcome from the offset reached after consuming every chunk. -/
theorem readLoopErr_reach (limit : Nat) :
    ∀ (cs : List (List Nat)) (s : FetchState) (m : String),
      s.offset + totalLen cs ≤ limit →
      readLoopErr limit s cs (some m) =
        (match handleStreamError (s.offset + totalLen cs) m with
         | none => .ok { written := s.written ++ cs.flatten,
                         offset := s.offset + totalLen cs,
                         cancelled := s.cancelled }
         | some e => .error e)
  | [], s, m, h => by
    simp only [readLoopErr, totalLen_nil, Nat.add_zero, List.flatten_nil, List.append_nil]
  | value :: rest, s, m, h => by
    have hfit : ¬ (value.length > limit - s.offset) := by
      simp only [totalLen_cons] at h; omega
    have h2 : (s.offset + value.length) + totalLen rest ≤ limit := by
      simp only [totalLen_cons] at h; omega
    simp only [readLoopErr, if_neg hfit]
    rw [readLoopErr_reach limit rest
      { written := s.written ++ value, offset := s.offset + value.length,
        cancelled := s.cancelled } m h2]
    simp only [totalLen_cons, List.flatten_cons, List.append_assoc, Nat.add_assoc]

/-! ## Lemmas about the normalization walk -/

/-- Field-wise normalization preserves keys and normalizes looked-up
values. -/
theorem jlookup_normalizeFields (k : String) :
    ∀ fs : JFields,
      jlookup k (normalizeMediaInfoFields fs) = (jlookup k fs).map normalizeMediaInfo
  | .fnil => rfl
  | .fcons k2 v rest => by
    simp only [normalizeMediaInfoFields, jlookup]
    by_cases hk : (k2 == k) = true
    · simp [hk]
    · simp [hk, jlookup_normalizeFields k rest]

/-- Normalization never produces or destroys `undefined`. -/
theorem isUndefV_normalize (v : JVal) :
    isUndefV (normalizeMediaInfo v) = isUndefV v := by
  cases v with
  | jobj fs =>
    simp only [normalizeMediaInfo]
    cases hh : jlookup "#value" fs with
    | none => rfl
    | some w =>
      show isUndefV
          (if isUndefV w = true then JVal.jobj (normalizeMediaInfoFields fs) else w) =
        isUndefV (JVal.jobj fs)
      by_cases hw : isUndefV w = true
      · rw [if_pos hw]
        rfl
      · rw [if_neg hw]
        simp only [Bool.not_eq_true] at hw
        exact hw
  | jarr l => rfl
  | jstr s => rfl
  | jnum n => rfl
  | jbool b => rfl
  | jnull => rfl
  | jundef => rfl

/-- Field-wise normalization does not change whether a map is a wrapper. -/
theorem isWrapped_normalizeFields (fs : JFields) :
    isWrapped (normalizeMediaInfoFields fs) = isWrapped fs := by
  simp only [isWrapped, jlookup_normalizeFields]
  cases jlookup "#value" fs <;> simp [isUndefV_normalize]

mutual
/-- If every wrapper payload in the value is wrapper-free, the normalized
value is wrapper-free. -/
theorem goodV_wfree : ∀ v : JVal, goodV v = true → wfreeV (normalizeMediaInfo v) = true
  | .jstr _, _ => rfl
  | .jnum _, _ => rfl
  | .jbool _, _ => rfl
  | .jnull, _ => rfl
  | .jundef, _ => rfl
  | .jarr l, h => by
    simp only [normalizeMediaInfo, wfreeV]
    exact goodL_wfree l (by simpa [goodV] using h)
  | .jobj fs, h => by
    simp only [normalizeMediaInfo, goodV] at h ⊢
    cases hl : jlookup "#value" fs with
    | none =>
      simp only [hl] at h ⊢
      have hg := goodF_wfree fs h
      simp only [wfreeV, isWrapped_normalizeFields]
      simp [isWrapped, hl, hg]
    | some w =>
      by_cases hw : isUndefV w = true
      · simp only [hl, hw, if_true] at h ⊢
        have hg := goodF_wfree fs h
        simp only [wfreeV, isWrapped_normalizeFields]
        simp [isWrapped, hl, hw, hg]
      · simp only [hl, hw, Bool.false_eq_true, if_false] at h ⊢
        exact h

/-- `goodV_wfree` over sequences. -/
theorem goodL_wfree : ∀ l : JList, goodL l = true → wfreeL (normalizeMediaInfoList l) = true
  | .jnil, _ => rfl
  | .jcons v rest, h => by
    simp only [goodL, Bool.and_eq_true] at h
    simp [normalizeMediaInfoList, wfreeL, goodV_wfree v h.1, goodL_wfree rest h.2]

/-- `goodV_wfree` over map fields. -/
theorem goodF_wfree : ∀ fs : JFields, goodF fs = true → wfreeF (normalizeMediaInfoFields fs) = true
  | .fnil, _ => rfl
  | .fcons k v rest, h => by
    simp only [goodF, Bool.and_eq_true] at h
    simp [normalizeMediaInfoFields, wfreeF, goodV_wfree v h.1, goodF_wfree rest h.2]
end

/-- When the unwrap does not fire, the `isZipCompressed` flag still
records whether the zip-deflate signature was seen (the geometry-starved
corner of lines 177-216). -/
theorem fetchBody_plain_flag (d : List Nat → List (List Nat)) (limit : Nat)
    (first : List Nat) (rest : List (List Nat)) (h : unwrapFires first = false) :
    (fetchBody d limit (first :: rest)).isZipCompressed =
      (zipSigMatch first && (compressionMethod first == 8)) := by
  simp only [fetchBody, h, Bool.false_eq_true, if_false]
  split <;> rfl

/-- A character list always leads a list that extends it. -/
theorem charsLeading_append_self : ∀ (l x : List Char), charsLeading l (l ++ x) = true
  | [], _ => rfl
  | c :: cs, x => by
    simp [charsLeading, charsLeading_append_self cs x]

/-- `jsStartsWith` holds for any literal extension. -/
theorem jsStartsWith_append (p m : String) :
    jsStartsWith (p ++ m) p = true := by
  have : (p ++ m).data = p.data ++ m.data := String.data_append p m
  simp [jsStartsWith, this, charsLeading_append_self]

/-! ## Claims -/

/-- C5: `validate` raises InvalidURL for every URL whose hostname is one of
`127.0.0.1`, `localhost`, `10.1.2.3`, `192.168.0.5`, `172.20.0.1`,
`169.254.169.254`, or `metadata.google.internal`, and does not raise for
hostnames `172.15.0.1` and `172.32.0.1` (second octet just outside the
closed range 16-31). -/
theorem c5_ssrf_hosts :
    (validateUrlHost "127.0.0.1").isSome = true ∧
    (validateUrlHost "localhost").isSome = true ∧
    (validateUrlHost "10.1.2.3").isSome = true ∧
    (validateUrlHost "192.168.0.5").isSome = true ∧
    (validateUrlHost "172.20.0.1").isSome = true ∧
    (validateUrlHost "169.254.169.254").isSome = true ∧
    (validateUrlHost "metadata.google.internal").isSome = true ∧
    validateUrlHost "172.15.0.1" = none ∧
    validateUrlHost "172.32.0.1" = none := by
  decide

/-- C6 (counterexample): the hostname `169.254.0.1` begins with `169.254.`
yet `validate` does not raise for it — the guard only blocks the exact
metadata IP `169.254.169.254`, not the whole link-local prefix. -/
theorem c6_counterexample :
    jsStartsWith "169.254.0.1" "169.254." = true ∧
    validateUrlHost "169.254.0.1" = none := by
  decide

/-- C6 (amended): `validate` raises InvalidURL for every hostname
beginning with `10.`, every hostname beginning with `192.168.`, every
`172.`-prefixed hostname whose second octet parses into the closed range
16-31, every hostname equal to the IPv6 loopback literal `::1`, and the
exact metadata address `169.254.169.254`; generic `169.254.` link-local
hostnames other than the metadata address are not rejected. -/
theorem c6_private_ranges (host : String) :
    (jsStartsWith host "10." = true → (validateUrlHost host).isSome = true) ∧
    (jsStartsWith host "192.168." = true → (validateUrlHost host).isSome = true) ∧
    (jsStartsWith host "172." = true →
      ∀ v : Int, jsParseInt 10 ((jsSplit '.' host).getD 1 "") = some v →
        16 ≤ v → v ≤ 31 → (validateUrlHost host).isSome = true) ∧
    (host = "::1" → (validateUrlHost host).isSome = true) ∧
    (host = "169.254.169.254" → (validateUrlHost host).isSome = true) := by
  refine ⟨?_, ?_, ?_, ?_, ?_⟩
  · intro h
    simp only [validateUrlHost]
    split
    · rfl
    · split
      · rfl
      · split
        · rfl
        · split
          · rfl
          · simp_all
  · intro h
    simp only [validateUrlHost]
    split
    · rfl
    · split
      · rfl
      · split
        · rfl
        · split
          · rfl
          · simp_all
  · intro h v hv h16 h31
    simp only [validateUrlHost]
    split
    · rfl
    · split
      · rfl
      · split
        · rfl
        · split
          · rfl
          · simp_all
  · intro h
    subst h
    decide
  · intro h
    subst h
    decide

/-- C6 (witness). -/
theorem c6_private_ranges_witness :
    (validateUrlHost "10.9.9.9").isSome = true ∧
    (validateUrlHost "192.168.1.1").isSome = true ∧
    (validateUrlHost "172.31.5.5").isSome = true ∧
    (validateUrlHost "::1").isSome = true ∧
    (validateUrlHost "169.254.169.254").isSome = true :=
  ⟨(c6_private_ranges "10.9.9.9").1 (by decide),
   (c6_private_ranges "192.168.1.1").2.1 (by decide),
   (c6_private_ranges "172.31.5.5").2.2.1 (by decide) 31 (by decide) (by decide) (by decide),
   (c6_private_ranges "::1").2.2.2.1 rfl,
   (c6_private_ranges "169.254.169.254").2.2.2.2 rfl⟩

/-- C7: rewriting the Google Drive view link for file id `ABC123` yields a
target URL containing `id=ABC123` with the special-provider flag set, and
every URL that neither matches the view-link pattern nor contains the
direct-download host is returned unchanged with the flag clear. -/
theorem c7_drive_rewrite :
    (strIncludes (resolveGoogleDriveUrl "https://drive.google.com/file/d/ABC123/view").1
        "id=ABC123" = true ∧
      (resolveGoogleDriveUrl "https://drive.google.com/file/d/ABC123/view").2 = true) ∧
    (∀ url : String, driveSearch url.data = none →
      strIncludes url "drive.usercontent.google.com" = false →
      resolveGoogleDriveUrl url = (url, false)) := by
  refine ⟨by decide, ?_⟩
  intro url h1 h2
  simp [resolveGoogleDriveUrl, h1, h2]

/-- C7 (witness). -/
theorem c7_drive_rewrite_witness :
    resolveGoogleDriveUrl "https://example.com/movie.mkv" =
      ("https://example.com/movie.mkv", false) :=
  c7_drive_rewrite.2 "https://example.com/movie.mkv" (by decide) (by decide)

/-- C8: a HEAD probe answered with status 405 is retried as a GET carrying
`Range: bytes=0-0`, the diagnostics record `probeMethod = "GET"`, and all
subsequent header inspection reads the GET response; any other HEAD status
records `probeMethod = "HEAD"` and keeps the HEAD response. -/
theorem c8_probe_fallback (headRes retryGet : HttpResponse) :
    (headRes.status = 405 →
      probeStep headRes retryGet =
        { res := retryGet, probeMethod := "GET",
          retry := some { method := "GET",
                          reqHeaders := getEmulationHeaders (some "bytes=0-0") } } ∧
      headerGet (getEmulationHeaders (some "bytes=0-0")) "Range" = some "bytes=0-0" ∧
      probeContentType (probeStep headRes retryGet) =
        headerGet retryGet.headers "content-type") ∧
    (headRes.status ≠ 405 →
      probeStep headRes retryGet =
        { res := headRes, probeMethod := "HEAD", retry := none }) := by
  constructor
  · intro h
    have hp : probeStep headRes retryGet =
        { res := retryGet, probeMethod := "GET",
          retry := some { method := "GET",
                          reqHeaders := getEmulationHeaders (some "bytes=0-0") } } := by
      simp [probeStep, h]
    refine ⟨hp, by decide, ?_⟩
    rw [hp]
    rfl
  · intro h
    simp [probeStep, h]

/-- C8 (witness). -/
theorem c8_probe_fallback_witness :
    probeStep { status := 405, headers := [] }
        { status := 206, headers := [("content-type", "video/mp4")] } =
      { res := { status := 206, headers := [("content-type", "video/mp4")] },
        probeMethod := "GET",
        retry := some { method := "GET",
                        reqHeaders := getEmulationHeaders (some "bytes=0-0") } } ∧
    probeStep { status := 200, headers := [] }
        { status := 206, headers := [] } =
      { res := { status := 200, headers := [] }, probeMethod := "HEAD", retry := none } :=
  ⟨(c8_probe_fallback { status := 405, headers := [] }
      { status := 206, headers := [("content-type", "video/mp4")] }).1 rfl |>.1,
   (c8_probe_fallback { status := 200, headers := [] }
      { status := 206, headers := [] }).2 (by decide)⟩

/-- A buffer of zero-filler bytes reads zero everywhere. -/
theorem byteAt_replicate_zero (n i : Nat) : byteAt (List.replicate n 0) i = 0 := by
  induction n generalizing i with
  | zero => simp [byteAt]
  | succ k ih =>
    cases i with
    | zero => simp [byteAt, List.replicate_succ]
    | succ j => simp [byteAt, List.replicate_succ, ih j]

/-- C1 (counterexample): a body consisting of one chunk of exactly
`SAFE_LIMIT` bytes has cumulative length at least `SAFE_LIMIT`, yet the
underlying stream is never cancelled — the first chunk fills the buffer
exactly, the `offset < SAFE_LIMIT` guard skips the read loop, and
`cancel()` is never called. -/
theorem c1_counterexample :
    totalLen [List.replicate SAFE_LIMIT 0] ≥ SAFE_LIMIT ∧
    (fetchBody (fun _ => []) SAFE_LIMIT [List.replicate SAFE_LIMIT 0]).cancelled = false := by
  constructor
  · simp [totalLen]
  · have h0 : (zipSigMatch (List.replicate SAFE_LIMIT 0) &&
        (compressionMethod (List.replicate SAFE_LIMIT 0) == 8)) = false := by
      simp [zipSigMatch, byteAt_replicate_zero]
    rw [fetchBody_plain_cancelled _ _ _ _ h0]
    have h1 : totalLen [List.replicate SAFE_LIMIT 0] = SAFE_LIMIT := by
      simp [totalLen]
    have h2 : (List.replicate SAFE_LIMIT 0).length = SAFE_LIMIT := by
      simp
    rw [h1, h2]
    simp

/-- C1 (amended): for every sequence of body chunks, the bytes written
never exceed `SAFE_LIMIT` (also under the decompression pipeline); for a
stream without the zip-deflate signature the final offset is exactly the
cumulative input clipped at `SAFE_LIMIT` — in particular exactly
`SAFE_LIMIT` whenever the input supplies at least that much — and the
underlying stream is cancelled precisely when the cumulative input
strictly exceeds `SAFE_LIMIT` and the first chunk does not on its own
exactly fill the buffer (an exact first-chunk fill skips the read loop, so
no cancellation is issued). -/
theorem c1_capped_buffer (d : List Nat → List (List Nat)) (chunks : List (List Nat)) :
    (fetchBody d SAFE_LIMIT chunks).offset ≤ SAFE_LIMIT ∧
    (fetchBody d SAFE_LIMIT chunks).buffer.length ≤ SAFE_LIMIT ∧
    ((zipSigMatch (chunks.headD []) && (compressionMethod (chunks.headD []) == 8)) = false →
      (fetchBody d SAFE_LIMIT chunks).offset = min (totalLen chunks) SAFE_LIMIT ∧
      ((fetchBody d SAFE_LIMIT chunks).cancelled = true ↔
        SAFE_LIMIT < totalLen chunks ∧ (chunks.headD []).length ≠ SAFE_LIMIT)) := by
  refine ⟨fetchBody_offset_le d SAFE_LIMIT chunks,
    fetchBody_buffer_le d SAFE_LIMIT chunks, ?_⟩
  intro h0
  match chunks with
  | [] =>
    constructor
    · simp [fetchBody]
    · simp [fetchBody]
  | first :: rest =>
    have hu : unwrapFires first = false := by
      simp only [List.headD_cons] at h0
      simp only [unwrapFires, h0, Bool.false_and]
    constructor
    · exact fetchBody_plain_offset d SAFE_LIMIT first rest hu
    · rw [fetchBody_plain_cancelled d SAFE_LIMIT first rest (by simpa using h0)]
      simp [List.headD_cons]

/-- C1 (witness). -/
theorem c1_capped_buffer_witness :
    (fetchBody (fun _ => []) SAFE_LIMIT [[1, 2, 3]]).offset =
      min (totalLen [[1, 2, 3]]) SAFE_LIMIT :=
  ((c1_capped_buffer (fun _ => []) [[1, 2, 3]]).2.2 (by decide)).1

/-- C2 (counterexample): with the default cap of 10 MiB and a known total
size of 4 bytes (smaller than the cap), the requested range length is 4,
yet a remote that ignores the range header and sends a 6-byte chunk makes
the fetcher write 6 bytes — the code clamps only at `SAFE_LIMIT`, not at
the requested range length. -/
theorem c2_counterexample :
    requestedLen (10 * 1024 * 1024) (some 4) = 4 ∧
    (4 : Nat) < 10 * 1024 * 1024 ∧
    ((fetchBody (fun _ => []) SAFE_LIMIT [[0, 0, 0, 0, 0, 0]]).offset : Int) >
      requestedLen (10 * 1024 * 1024) (some 4) := by
  refine ⟨by decide, by decide, ?_⟩
  have : (fetchBody (fun _ => []) SAFE_LIMIT [[0, 0, 0, 0, 0, 0]]).offset = 6 := by decide
  rw [this]
  decide

/-- C2 (amended): the requested range length is `min(chunkSizeCap,
totalSize)` when the total size is known and positive; the bytes written
never exceed `SAFE_LIMIT`; and when the remote honours the requested range
(cumulative chunks no longer than the request) and the stream does not
enter the decompression pipeline, the bytes written do not exceed the
requested range length. -/
theorem c2_offset_bound (d : List Nat → List (List Nat)) (chunks : List (List Nat))
    (chunkSize n : Nat) (_hn : 0 < n) (hc : n < chunkSize)
    (hunwrap : unwrapFires (chunks.headD []) = false)
    (hsend : (totalLen chunks : Int) ≤ requestedLen chunkSize (some n)) :
    requestedLen chunkSize (some n) = min (chunkSize : Int) (n : Int) ∧
    (fetchBody d SAFE_LIMIT chunks).offset ≤ SAFE_LIMIT ∧
    ((fetchBody d SAFE_LIMIT chunks).offset : Int) ≤ requestedLen chunkSize (some n) := by
  have hreq : requestedLen chunkSize (some n) = min (chunkSize : Int) (n : Int) := by
    simp only [requestedLen, fetchEnd]
    omega
  refine ⟨hreq, fetchBody_offset_le d SAFE_LIMIT chunks, ?_⟩
  have hofs : (fetchBody d SAFE_LIMIT chunks).offset ≤ totalLen chunks := by
    match chunks with
    | [] => simp [fetchBody]
    | first :: rest =>
      rw [fetchBody_plain_offset d SAFE_LIMIT first rest (by simpa using hunwrap)]
      exact min_le_left _ _
  omega

/-- C2 (witness). -/
theorem c2_offset_bound_witness :
    requestedLen 8 (some 5) = min (8 : Int) (5 : Int) ∧
    (fetchBody (fun _ => []) SAFE_LIMIT [[7, 7, 7]]).offset ≤ SAFE_LIMIT ∧
    ((fetchBody (fun _ => []) SAFE_LIMIT [[7, 7, 7]]).offset : Int) ≤ requestedLen 8 (some 5) :=
  c2_offset_bound (fun _ => []) [[7, 7, 7]] 8 5 (by decide) (by decide) (by decide) (by decide)

/-- C3: if the first chunk carries the zip signature, is longer than 30
bytes, declares compression method 8 at offset 8 (16-bit little-endian)
and extends past `dataOffset = 30 + filenameLength + extraFieldLength`,
the returned buffer is the decompressor's output on the byte stream formed
by the first chunk's suffix past `dataOffset` followed by all subsequent
chunks, clipped at the cap; if the method is 0 or the signature does not
match, no unwrap occurs and the first chunk is copied as ordinary payload
ahead of the remaining chunks. -/
theorem c3_zip_unwrap (d : List Nat → List (List Nat)) (first : List Nat)
    (rest : List (List Nat)) :
    (first.length > 30 → byteAt first 0 = 0x50 → byteAt first 1 = 0x4b →
      byteAt first 2 = 0x03 → byteAt first 3 = 0x04 → compressionMethod first = 8 →
      first.length > dataOffsetOf first →
      (fetchBody d SAFE_LIMIT (first :: rest)).isZipCompressed = true ∧
      (fetchBody d SAFE_LIMIT (first :: rest)).buffer =
        ((d (first.drop (dataOffsetOf first) ++ rest.flatten)).flatten).take SAFE_LIMIT) ∧
    ((zipSigMatch first = false ∨ compressionMethod first = 0) →
      (fetchBody d SAFE_LIMIT (first :: rest)).isZipCompressed = false ∧
      (fetchBody d SAFE_LIMIT (first :: rest)).buffer =
        ((first :: rest).flatten).take SAFE_LIMIT) := by
  constructor
  · intro hlen h0 h1 h2 h3 hm hdo
    have hu : unwrapFires first = true := by
      simp [unwrapFires, zipSigMatch, hlen, h0, h1, h2, h3, hm, hdo]
    rw [fetchBody_unwrap_spec d SAFE_LIMIT first rest hu (by decide)]
    exact ⟨rfl, rfl⟩
  · intro hor
    have hz : (zipSigMatch first && (compressionMethod first == 8)) = false := by
      rcases hor with h | h
      · simp [h]
      · simp [h]
    have hu : unwrapFires first = false := by
      simp only [unwrapFires, ← Bool.and_assoc, hz, Bool.false_and]
    constructor
    · rw [fetchBody_plain_flag d SAFE_LIMIT first rest hu, hz]
    · exact fetchBody_plain_buffer d SAFE_LIMIT first rest hu

/-- C3 (witness). -/
theorem c3_zip_unwrap_witness :
    (fetchBody (fun bs => [bs, bs]) SAFE_LIMIT
        ((padTo 30 [0x50, 0x4b, 0x03, 0x04, 0, 0, 0, 0, 8, 0] ++ [0x61]) ::
          [[0x62]])).buffer = [0x61, 0x62, 0x61, 0x62] ∧
    (fetchBody (fun bs => [bs, bs]) SAFE_LIMIT
        ((padTo 30 [0x50, 0x4b, 0x03, 0x04, 0, 0, 0, 0, 0, 0] ++ [0x61]) ::
          [[0x62]])).isZipCompressed = false := by
  constructor
  · have h := ((c3_zip_unwrap (fun bs => [bs, bs])
        (padTo 30 [0x50, 0x4b, 0x03, 0x04, 0, 0, 0, 0, 8, 0] ++ [0x61]) [[0x62]]).1
      (by decide) (by decide) (by decide) (by decide) (by decide) (by decide) (by decide)).2
    rw [h]
    decide
  · exact ((c3_zip_unwrap (fun bs => [bs, bs])
      (padTo 30 [0x50, 0x4b, 0x03, 0x04, 0, 0, 0, 0, 0, 0] ++ [0x61]) [[0x62]]).2
      (Or.inr (by decide))).1

/-- C4: during the copy loop, a terminal stream or decompression failure
whose message indicates incomplete data or an unexpected end of file is
swallowed — the partial state is returned normally — exactly when at
least one byte was already written; every other failure, and this same
failure with zero bytes written, is surfaced as an error whose message
begins with `Stream reading failed: `. -/
theorem c4_stream_error (s : FetchState) (cs : List (List Nat)) (m : String)
    (hfit : s.offset + totalLen cs ≤ SAFE_LIMIT) :
    (0 < s.offset + totalLen cs →
      (strIncludes m "incomplete data" || strIncludes m "unexpected end of file") = true →
      readLoopErr SAFE_LIMIT s cs (some m) =
        .ok { written := s.written ++ cs.flatten,
              offset := s.offset + totalLen cs, cancelled := s.cancelled }) ∧
    (¬(0 < s.offset + totalLen cs ∧
        (strIncludes m "incomplete data" || strIncludes m "unexpected end of file") = true) →
      readLoopErr SAFE_LIMIT s cs (some m) = .error ("Stream reading failed: " ++ m) ∧
      jsStartsWith ("Stream reading failed: " ++ m) "Stream reading failed: " = true) := by
  rw [readLoopErr_reach SAFE_LIMIT cs s m hfit]
  constructor
  · intro hpos hmsg
    have hd : decide (s.offset + totalLen cs > 0) = true := decide_eq_true hpos
    have hc : (decide (s.offset + totalLen cs > 0) &&
        (strIncludes m "incomplete data" || strIncludes m "unexpected end of file")) = true := by
      rw [hd, hmsg]
      rfl
    unfold handleStreamError
    rw [hc]
    simp
  · intro hneg
    have hcond : (decide (s.offset + totalLen cs > 0) &&
        (strIncludes m "incomplete data" || strIncludes m "unexpected end of file")) = false := by
      by_cases hp : 0 < s.offset + totalLen cs
      · by_cases hm : (strIncludes m "incomplete data" ||
            strIncludes m "unexpected end of file") = true
        · exact absurd ⟨hp, hm⟩ hneg
        · simp only [Bool.not_eq_true] at hm
          simp [hm]
      · simp [hp]
    constructor
    · unfold handleStreamError
      rw [hcond]
      simp
    · exact jsStartsWith_append _ m

/-- C4 (witness). -/
theorem c4_stream_error_witness :
    readLoopErr SAFE_LIMIT { written := [], offset := 0, cancelled := false } [[1, 2]]
        (some "DecompressionStream error: incomplete data") =
      .ok { written := [1, 2], offset := 2, cancelled := false } ∧
    readLoopErr SAFE_LIMIT { written := [], offset := 0, cancelled := false } [[1, 2]]
        (some "boom") = .error ("Stream reading failed: " ++ "boom") :=
  ⟨(c4_stream_error { written := [], offset := 0, cancelled := false } [[1, 2]]
      "DecompressionStream error: incomplete data" (by decide)).1 (by decide) (by decide),
   ((c4_stream_error { written := [], offset := 0, cancelled := false } [[1, 2]]
      "boom" (by decide)).2 (by decide)).1⟩

/-- C9: `extractFirstFileFromArchive` returns the name of the first
non-directory entry — on a ZIP buffer with the single non-directory entry
`movie.mkv` it returns that name; on a ZIP buffer whose first entry is a
directory followed by a file it returns the file's name; on a TAR buffer
in which a GNU long-name extension block precedes the real entry it
returns the long name from the payload, not the 100-byte header field. -/
theorem c9_first_entry_names :
    extractFirstFileFromArchive zipSingleEntry = some "movie.mkv" ∧
    extractFirstFileFromArchive zipDirThenFile = some "file.bin" ∧
    extractFirstFileFromArchive tarLongNameEntry = some "averylongname.mkv" := by
  refine ⟨by decide, by decide, by decide⟩

/-- C10 (counterexample): on the wrapper-inside-wrapper input
`{ "#value": { "#value": 5 } }` the normalizer returns the inner wrapper
object untouched, so the result still contains an object with a defined
`#value` key — the extracted payload is not normalized further. -/
theorem c10_counterexample :
    wfreeV (normalizeMediaInfo
      (JVal.jobj (JFields.fcons "#value"
        (JVal.jobj (JFields.fcons "#value" (JVal.jnum 5) JFields.fnil))
        JFields.fnil))) = false := by
  decide

/-- C10 (amended): `normalizeMediaInfo` unwraps wrapper objects carrying a
defined `#value` key into their raw payload without normalizing that
payload further, recurses structurally into maps and sequences, and passes
primitives through; consequently the result contains no wrapper object at
any depth whenever every wrapper payload in the input is itself
wrapper-free (in particular for the flat shapes MediaInfo emits, whose
payloads are primitives). -/
theorem c10_normalize_wrapper_free (v : JVal) (h : goodV v = true) :
    wfreeV (normalizeMediaInfo v) = true :=
  goodV_wfree v h

/-- C10 (witness). -/
theorem c10_normalize_wrapper_free_witness :
    wfreeV (normalizeMediaInfo
      (JVal.jobj (JFields.fcons "#value" (JVal.jstr "x") JFields.fnil))) = true :=
  c10_normalize_wrapper_free
    (JVal.jobj (JFields.fcons "#value" (JVal.jstr "x") JFields.fnil)) (by decide)
